import Mathlib

/-!
Shallow embedding of the in-memory library service (`lm.py`).

Modelling conventions:
- `datetime.date` values are modelled as `Int` (proleptic ordinal day numbers);
  date comparison is `Int` comparison and `(a - b).days` is `Int` subtraction.
- Python `dict` (which preserves insertion order, updates values in place and
  pops by key) is modelled as an association list `List (key × value)` with
  the helper operations `dictGet`, `dictSet`, `dictPop` below.
- `Money` (a `decimal.Decimal` in the source) is modelled as `ℚ`, i.e. exact
  arithmetic, matching the sub-cent-exact decimal arithmetic of the source.
- A raised exception is an `Except.error`; `None`-able arguments are `Option`.
- Every service operation is passed the service state and returns, next to its
  `Except` outcome, the post-call service state and the post-call member
  object (the source mutates the member in place).
- `datetime.date.today()` is an explicit `today : Int` argument.
-/

set_option autoImplicit false

universe u v

/-- Python `d.get(k)`: first value stored under key `k`, if any. -/
def dictGet {α : Type u} {β : Type v} [DecidableEq α] : List (α × β) → α → Option β
  | [], _ => none
  | (k, v) :: t, a => if k = a then some v else dictGet t a

/-- Python `d[k] = v`: replace the value in place if the key is present
(keeping its position, as CPython dicts do), else append the pair. -/
def dictSet {α : Type u} {β : Type v} [DecidableEq α] : List (α × β) → α → β → List (α × β)
  | [], a, b => [(a, b)]
  | (k, v) :: t, a, b => if k = a then (a, b) :: t else (k, v) :: dictSet t a b

/-- Python `d.pop(k, None)`: the removed value (if any) and the remaining dict. -/
def dictPop {α : Type u} {β : Type v} [DecidableEq α] : List (α × β) → α → Option β × List (α × β)
  | [], _ => (none, [])
  | (k, v) :: t, a =>
    if k = a then (some v, t)
    else
      let r := dictPop t a
      (r.1, (k, v) :: r.2)

/-- `Money` in the source is a thin `Decimal` wrapper; modelled as `ℚ`. -/
abbrev Money : Type := ℚ

/-- `Book` dataclass: isbn, title, tags. -/
structure Book where
  isbn : String
  title : String
  tags : List String
deriving DecidableEq, Repr

/-- `BorrowRecord` dataclass: isbn, borrowed_on, due_on, returned_on. -/
structure BorrowRecord where
  isbn : String
  borrowed_on : Int
  due_on : Int
  returned_on : Option Int := none
deriving DecidableEq, Repr

/-- `BorrowRecord.is_overdue`: open (`returned_on is None`) and `as_of > due_on`. -/
def BorrowRecord.is_overdue (r : BorrowRecord) (as_of : Int) : Bool :=
  r.returned_on.isNone && decide (r.due_on < as_of)

/-- `MemberStatus.ACTIVE` (a plain string constant in the source). -/
def MemberStatus.ACTIVE : String := "ACTIVE"

/-- `MemberStatus.BLOCKED` (a plain string constant in the source). -/
def MemberStatus.BLOCKED : String := "BLOCKED"

/-- `Member` dataclass: id, status string, and the `_borrowed` dict
(ISBN → BorrowRecord), modelled as an insertion-ordered association list. -/
structure Member where
  member_id : Int
  status : String
  borrowed : List (String × BorrowRecord) := []
deriving DecidableEq, Repr

/-- `Member.borrow`: store a fresh record under the isbn (overwriting any
existing entry, as `self._borrowed[isbn] = rec` does). -/
def Member.borrow (m : Member) (isbn : String) (due_on : Int) (today : Int) : Member :=
  { m with borrowed := dictSet m.borrowed isbn ⟨isbn, today, due_on, none⟩ }

/-- `Member.return_book`: pop the record for the isbn; when present, stamp its
`returned_on` with `when`.  Returns the (stamped) popped record and the
post-call member. -/
def Member.return_book (m : Member) (isbn : String) (when : Int) :
    Option BorrowRecord × Member :=
  match dictPop m.borrowed isbn with
  | (none, d) => (none, { m with borrowed := d })
  | (some r, d) => (some { r with returned_on := some when }, { m with borrowed := d })

/-- `ReceiptStatus.BORROWED` string constant. -/
def ReceiptStatus.BORROWED : String := "BORROWED"

/-- `ReceiptStatus.RETURNED_ON_TIME` string constant. -/
def ReceiptStatus.RETURNED_ON_TIME : String := "RETURNED_ON_TIME"

/-- `ReceiptStatus.RETURNED_LATE` string constant. -/
def ReceiptStatus.RETURNED_LATE : String := "RETURNED_LATE"

/-- `Receipt` frozen dataclass. -/
structure Receipt where
  status : String
  when : Int
  isbn : String
deriving DecidableEq, Repr

/-- The exceptions the service raises.  `valueError` stands for Python's
`ValueError` (the spec's `InvalidArgument`). -/
inductive LibError where
  | memberBlocked (msg : String)
  | bookNotFound (msg : String)
  | bookNotBorrowed (msg : String)
  | valueError (msg : String)
deriving DecidableEq, Repr

/-- The service's two collections: `catalogue : ISBN → Book` and
`members : member_id → Member`, both insertion-ordered dicts. -/
structure LibState where
  catalogue : List (String × Book)
  members : List (Int × Member)
deriving DecidableEq, Repr

/-- `LibraryServiceImpl.DAILY_FINE = Money("0.50")`. -/
def DAILY_FINE : Money := 1 / 2

/-- `LibraryServiceImpl.borrow_book`.  Checks member (None / blocked), then
`due_date is None or due_date <= today`, then catalogue membership, then
creates the record under the member. -/
def borrow_book (st : LibState) (memberOpt : Option Member) (isbn : String)
    (due_date : Option Int) (today : Int) :
    Except LibError Receipt × LibState × Option Member :=
  match memberOpt with
  | none => (.error (.valueError "member must not be None"), st, none)
  | some m =>
    if m.status = MemberStatus.BLOCKED then
      (.error (.memberBlocked "Member is blocked"), st, some m)
    else
      match due_date with
      | none => (.error (.valueError "due_date must be in the future"), st, some m)
      | some d =>
        if d ≤ today then
          (.error (.valueError "due_date must be in the future"), st, some m)
        else
          match dictGet st.catalogue isbn with
          | none => (.error (.bookNotFound "ISBN not found"), st, some m)
          | some _ =>
            (.ok ⟨ReceiptStatus.BORROWED, today, isbn⟩, st,
              some (Member.borrow m isbn d today))

/-- `LibraryServiceImpl.return_book`.  Checks member, then
`return_date is None`, then pops the record (the pop happens before the
not-borrowed check, exactly as in the source). -/
def return_book (st : LibState) (memberOpt : Option Member) (isbn : String)
    (return_date : Option Int) :
    Except LibError Receipt × LibState × Option Member :=
  match memberOpt with
  | none => (.error (.valueError "member must not be None"), st, none)
  | some m =>
    if m.status = MemberStatus.BLOCKED then
      (.error (.memberBlocked "Member is blocked"), st, some m)
    else
      match return_date with
      | none => (.error (.valueError "return_date must not be None"), st, some m)
      | some d =>
        match Member.return_book m isbn d with
        | (none, m2) => (.error (.bookNotBorrowed "Book was not borrowed by member"), st, some m2)
        | (some r, m2) =>
          (.ok ⟨if r.due_on < d then ReceiptStatus.RETURNED_LATE
                else ReceiptStatus.RETURNED_ON_TIME, d, isbn⟩, st, some m2)

/-- `LibraryServiceImpl.calculate_fine`.  Checks member, then
`as_of_date is None`, then folds over the member's open records exactly as the
`for br in member.borrowed` loop does. -/
def calculate_fine (st : LibState) (memberOpt : Option Member) (as_of_date : Option Int) :
    Except LibError Money × LibState × Option Member :=
  match memberOpt with
  | none => (.error (.valueError "member must not be None"), st, none)
  | some m =>
    if m.status = MemberStatus.BLOCKED then
      (.error (.memberBlocked "Member is blocked"), st, some m)
    else
      match as_of_date with
      | none => (.error (.valueError "as_of_date must not be None"), st, some m)
      | some d =>
        let total := (m.borrowed.map Prod.snd).foldl
          (fun total br =>
            if br.is_overdue d then total + DAILY_FINE * ((d - br.due_on : Int) : ℚ)
            else total) 0
        (.ok total, st, some m)

/-- Python `str.isspace` restricted to the ASCII whitespace characters
(space, tab, newline, carriage return, vertical tab, form feed). -/
def isPySpace (c : Char) : Bool :=
  c = ' ' || c = '\t' || c = '\n' || c = '\r' || c = Char.ofNat 11 || c = Char.ofNat 12

/-- Python `s.isspace()`: non-empty and every character is whitespace. -/
def pyStrIsSpace (s : String) : Bool :=
  !s.data.isEmpty && s.data.all isPySpace

/-- Case-lowering of a string to its character list (`str.lower`, ASCII). -/
def strLower (s : String) : List Char :=
  s.data.map Char.toLower

/-- `needle` is a leading segment of `hay` (helper for substring search). -/
def leadsWith : List Char → List Char → Bool
  | [], _ => true
  | _ :: _, [] => false
  | a :: as, b :: bs => a = b && leadsWith as bs

/-- Python `needle in hay` for strings: contiguous-substring containment. -/
def containsSub (hay needle : List Char) : Bool :=
  match hay with
  | [] => needle.isEmpty
  | _ :: t => leadsWith needle hay || containsSub t needle

/-- `LibraryServiceImpl.search_books`.  Validations, then the text filter
(skipped for the literal `"*"`), then the tag filter (skipped for an empty
tag list, as `if tags:` does), then the `[start:end]` slice. -/
def search_books (st : LibState) (query : Option String) (tags : Option (List String))
    (page_size : Int) (page_number : Int) :
    Except LibError (List Book) × LibState :=
  match query with
  | none => (.error (.valueError "query must not be empty"), st)
  | some q =>
    if q.data.isEmpty || pyStrIsSpace q then
      (.error (.valueError "query must not be empty"), st)
    else
      match tags with
      | none => (.error (.valueError "tags must not be None"), st)
      | some ts =>
        if ¬ (1 ≤ page_size ∧ page_size ≤ 100) then
          (.error (.valueError "page_size must be 1..100"), st)
        else if page_number < 0 then
          (.error (.valueError "page_number must be >= 0"), st)
        else
          let stream0 := st.catalogue.map Prod.snd
          let stream1 :=
            if q ≠ "*" then
              stream0.filter (fun b => containsSub (strLower b.title) (strLower q))
            else stream0
          let stream2 :=
            if !ts.isEmpty then
              stream1.filter (fun b => ts.all (fun t => b.tags.contains t))
            else stream1
          let start := (page_size * page_number).toNat
          (.ok ((stream2.drop start).take page_size.toNat), st)

/-- The per-record amount the fine loop adds: the daily rate times the day
difference when the record is open and overdue, else zero. -/
def overdueContrib (d : Int) (r : BorrowRecord) : ℚ :=
  if r.is_overdue d then DAILY_FINE * ((d - r.due_on : Int) : ℚ) else 0

/-- The filtered-but-unpaginated result sequence, phrased as the spec phrases
it: one conjunctive pass over the catalogue's iteration order (wildcard or
case-insensitive substring on the title, and every requested tag present). -/
def filteredSpec (cat : List (String × Book)) (q : String) (ts : List String) : List Book :=
  (cat.map Prod.snd).filter (fun b =>
    (decide (q = "*") || containsSub (strLower b.title) (strLower q)) &&
    ts.all (fun t => b.tags.contains t))

theorem dictGet_dictSet_self {α : Type u} {β : Type v} [DecidableEq α]
    (d : List (α × β)) (k : α) (v : β) : dictGet (dictSet d k v) k = some v := by
  induction d with
  | nil => simp [dictGet, dictSet]
  | cons h t ih =>
    obtain ⟨k1, v1⟩ := h
    by_cases hk : k1 = k <;> simp [dictGet, dictSet, hk, ih]

theorem dictPop_fst {α : Type u} {β : Type v} [DecidableEq α]
    (d : List (α × β)) (k : α) : (dictPop d k).1 = dictGet d k := by
  induction d with
  | nil => simp [dictGet, dictPop]
  | cons h t ih =>
    obtain ⟨k1, v1⟩ := h
    by_cases hk : k1 = k <;> simp [dictGet, dictPop, hk, ih]

theorem dictPop_snd {α : Type u} {β : Type v} [DecidableEq α]
    (d : List (α × β)) (k : α) :
    (dictPop d k).2 = d.eraseP (fun p => decide (p.1 = k)) := by
  induction d with
  | nil => simp [dictPop]
  | cons h t ih =>
    obtain ⟨k1, v1⟩ := h
    by_cases hk : k1 = k <;> simp [dictPop, List.eraseP_cons, hk, ih]

theorem dictGet_eq_none_iff {α : Type u} {β : Type v} [DecidableEq α]
    (d : List (α × β)) (k : α) :
    dictGet d k = none ↔ k ∉ d.map Prod.fst := by
  induction d with
  | nil => simp [dictGet]
  | cons h t ih =>
    obtain ⟨k1, v1⟩ := h
    by_cases hk : k1 = k
    · simp [dictGet, hk]
    · rw [dictGet, if_neg hk, ih]
      simp only [List.map_cons, List.mem_cons]
      constructor
      · intro hm hc
        rcases hc with hc | hc
        · exact hk hc.symm
        · exact hm hc
      · intro hm hc
        exact hm (Or.inr hc)

theorem dictPop_of_get_none {α : Type u} {β : Type v} [DecidableEq α]
    (d : List (α × β)) (k : α) (h : dictGet d k = none) : dictPop d k = (none, d) := by
  induction d with
  | nil => simp [dictPop]
  | cons p t ih =>
    obtain ⟨k1, v1⟩ := p
    by_cases hk : k1 = k
    · simp [dictGet, hk] at h
    · simp [dictGet, hk] at h
      simp [dictPop, hk, ih h]

theorem dictGet_eraseP_self_of_nodup {α : Type u} {β : Type v} [DecidableEq α]
    (d : List (α × β)) (k : α) (hnd : (d.map Prod.fst).Nodup) :
    dictGet (d.eraseP (fun p => decide (p.1 = k))) k = none := by
  induction d with
  | nil => simp [dictGet]
  | cons p t ih =>
    obtain ⟨k1, v1⟩ := p
    simp only [List.map_cons, List.nodup_cons] at hnd
    by_cases hk : k1 = k
    · rw [List.eraseP_cons_of_pos (by simp [hk])]
      rw [dictGet_eq_none_iff]
      rw [hk] at hnd
      exact hnd.1
    · rw [List.eraseP_cons_of_neg (by simp [hk])]
      rw [dictGet, if_neg hk]
      exact ih hnd.2

theorem fineFold_eq_sum (d : Int) (l : List BorrowRecord) (a : ℚ) :
    l.foldl (fun total br =>
      if br.is_overdue d then total + DAILY_FINE * ((d - br.due_on : Int) : ℚ)
      else total) a = a + (l.map (overdueContrib d)).sum := by
  induction l generalizing a with
  | nil => simp
  | cons r t ih =>
    simp only [List.foldl_cons, List.map_cons, List.sum_cons, ih]
    by_cases h : r.is_overdue d
    · simp [overdueContrib, h]
      ring
    · simp [overdueContrib, h]

theorem sum_overdueContrib_eq_filter (d : Int) (l : List BorrowRecord) :
    (l.map (overdueContrib d)).sum =
      ((l.filter (fun r => r.is_overdue d)).map
        (fun r => DAILY_FINE * ((d - r.due_on : Int) : ℚ))).sum := by
  induction l with
  | nil => simp
  | cons r t ih =>
    by_cases h : r.is_overdue d <;>
      simp [overdueContrib, List.filter_cons, h, ih]

theorem overdueContrib_nonneg (d : Int) (r : BorrowRecord) :
    0 ≤ overdueContrib d r := by
  unfold overdueContrib
  by_cases h : r.is_overdue d
  · simp only [h, if_true]
    have hd : r.due_on < d := by
      have := h
      unfold BorrowRecord.is_overdue at this
      simp at this
      exact this.2
    have : (0 : ℚ) ≤ ((d - r.due_on : Int) : ℚ) := by
      have : (0 : Int) ≤ d - r.due_on := by omega
      exact_mod_cast this
    have hD : (0 : ℚ) ≤ DAILY_FINE := by norm_num [DAILY_FINE]
    positivity
  · simp [h]

theorem overdueContrib_mono (d1 d2 : Int) (r : BorrowRecord) (h : d1 ≤ d2) :
    overdueContrib d1 r ≤ overdueContrib d2 r := by
  unfold overdueContrib
  by_cases h1 : r.is_overdue d1
  · have h2 : r.is_overdue d2 = true := by
      unfold BorrowRecord.is_overdue at h1 ⊢
      simp at h1 ⊢
      exact ⟨h1.1, by omega⟩
    simp only [h1, h2, if_true]
    have : ((d1 - r.due_on : Int) : ℚ) ≤ ((d2 - r.due_on : Int) : ℚ) := by
      exact_mod_cast (by omega : (d1 - r.due_on : Int) ≤ d2 - r.due_on)
    have hD : (0 : ℚ) ≤ DAILY_FINE := by norm_num [DAILY_FINE]
    exact mul_le_mul_of_nonneg_left this hD
  · simp only [h1, if_false]
    by_cases h2 : r.is_overdue d2
    · simp only [h2, if_true]
      have := overdueContrib_nonneg d2 r
      unfold overdueContrib at this
      simpa [h2] using this
    · simp [h2]

theorem leadsWith_iff (n h : List Char) : leadsWith n h = true ↔ n <+: h := by
  induction n generalizing h with
  | nil => simp [leadsWith]
  | cons a as ih =>
    cases h with
    | nil => simp [leadsWith]
    | cons b bs =>
      simp only [leadsWith, Bool.and_eq_true, decide_eq_true_eq, ih]
      constructor
      · rintro ⟨rfl, hp⟩
        rcases hp with ⟨t, rfl⟩
        exact ⟨t, rfl⟩
      · intro hp
        rcases hp with ⟨t, ht⟩
        injection ht with h1 h2
        exact ⟨h1, ⟨t, h2⟩⟩

theorem containsSub_iff (h n : List Char) : containsSub h n = true ↔ n <:+: h := by
  induction h with
  | nil => simp [containsSub, List.isEmpty_iff]
  | cons b bs ih =>
    simp only [containsSub, Bool.or_eq_true, leadsWith_iff, ih]
    constructor
    · rintro (hp | hi)
      · exact hp.isInfix
      · exact hi.trans (List.suffix_cons b bs).isInfix
    · intro hi
      rcases List.infix_cons_iff.mp hi with hp | hi2
      · exact Or.inl hp
      · exact Or.inr hi2

theorem streams_eq_filteredSpec (cat : List (String × Book)) (q : String) (ts : List String) :
    (if !ts.isEmpty then
       (if q ≠ "*" then
          (cat.map Prod.snd).filter (fun b => containsSub (strLower b.title) (strLower q))
        else cat.map Prod.snd).filter (fun b => ts.all (fun t => b.tags.contains t))
     else
       (if q ≠ "*" then
          (cat.map Prod.snd).filter (fun b => containsSub (strLower b.title) (strLower q))
        else cat.map Prod.snd)) = filteredSpec cat q ts := by
  simp only [filteredSpec]
  by_cases hq : q = "*"
  · cases ts with
    | nil => simp [hq]
    | cons t0 ts0 => simp [hq]
  · cases ts with
    | nil => simp [hq]
    | cons t0 ts0 =>
      simp only [hq, if_true, if_false, ne_eq, not_false_eq_true, List.isEmpty_cons,
        Bool.not_false, List.filter_filter, decide_eq_true_eq]
      apply List.filter_congr
      intro b _
      simp only [hq, decide_False, Bool.false_or]
      rw [Bool.and_comm]

theorem search_books_ok (st : LibState) (q : String) (ts : List String)
    (ps pn : Int) (hq : (q.data.isEmpty || pyStrIsSpace q) = false)
    (hps : 1 ≤ ps ∧ ps ≤ 100) (hpn : 0 ≤ pn) :
    search_books st (some q) (some ts) ps pn =
      (.ok (((filteredSpec st.catalogue q ts).drop (ps * pn).toNat).take ps.toNat), st) := by
  rw [search_books]
  rw [if_neg (by simp_all)]
  rw [if_neg (by omega)]
  rw [if_neg (by omega)]
  dsimp only
  rw [streams_eq_filteredSpec]

theorem calculate_fine_ok (st : LibState) (m : Member) (d : Int)
    (h : m.status ≠ MemberStatus.BLOCKED) :
    calculate_fine st (some m) (some d) =
      (.ok ((m.borrowed.map Prod.snd).map (overdueContrib d)).sum, st, some m) := by
  rw [calculate_fine]
  simp only [if_neg h]
  rw [fineFold_eq_sum]
  rw [zero_add]

/-- C1: for a non-blocked member and a given as-of date, `calculate_fine`
returns the sum, over the member's open borrow records whose due date is
strictly before the as-of date, of `0.50` times the whole-day difference, and
returns zero when no open record is overdue (returned records contribute
nothing, since only open records pass the filter). -/
theorem C1_calculate_fine_is_overdue_sum (st : LibState) (m : Member) (d : Int)
    (h : m.status ≠ MemberStatus.BLOCKED) :
    (calculate_fine st (some m) (some d)).1 =
      Except.ok ((((m.borrowed.map Prod.snd).filter
          (fun r => decide (r.returned_on = none ∧ r.due_on < d))).map
        (fun r => ((1 : ℚ) / 2) * ((d - r.due_on : Int) : ℚ))).sum) ∧
    ((∀ r ∈ m.borrowed.map Prod.snd, r.returned_on = none → ¬ r.due_on < d) →
      (calculate_fine st (some m) (some d)).1 = Except.ok 0) := by
  have hmain : (calculate_fine st (some m) (some d)).1 =
      Except.ok ((((m.borrowed.map Prod.snd).filter
          (fun r => decide (r.returned_on = none ∧ r.due_on < d))).map
        (fun r => ((1 : ℚ) / 2) * ((d - r.due_on : Int) : ℚ))).sum) := by
    rw [calculate_fine_ok st m d h]
    dsimp only
    rw [sum_overdueContrib_eq_filter]
    have hfilter : (m.borrowed.map Prod.snd).filter (fun r => r.is_overdue d) =
        (m.borrowed.map Prod.snd).filter
          (fun r => decide (r.returned_on = none ∧ r.due_on < d)) := by
      apply List.filter_congr
      intro r _
      unfold BorrowRecord.is_overdue
      cases hr : r.returned_on <;> simp [hr]
    rw [hfilter]
    have : DAILY_FINE = (1 : ℚ) / 2 := rfl
    rw [this]
  refine ⟨hmain, ?_⟩
  intro hnone
  rw [hmain]
  have : (m.borrowed.map Prod.snd).filter
      (fun r => decide (r.returned_on = none ∧ r.due_on < d)) = [] := by
    rw [List.filter_eq_nil_iff]
    intro r hr
    simp only [decide_eq_true_eq, not_and]
    exact hnone r hr
  rw [this]
  simp

/-- C1 witness: one open record borrowed on day 0 with a 14-day loan, queried
on day 16, yields exactly 1.00 (two days late at 0.50/day). -/
theorem C1_calculate_fine_witness :
    (calculate_fine ⟨[], []⟩ (some ⟨42, "ACTIVE", [("b1", ⟨"b1", 0, 14, none⟩)]⟩)
      (some 16)).1 = Except.ok 1 := by
  have h := (C1_calculate_fine_is_overdue_sum ⟨[], []⟩
    ⟨42, "ACTIVE", [("b1", ⟨"b1", 0, 14, none⟩)]⟩ 16 (by decide)).1
  rw [h]
  norm_num

/-- C2: a member whose status is BLOCKED makes borrow, return and
calculate_fine all fail with the MemberBlocked error, and each call returns
the catalogue/members state and the member unchanged. -/
theorem C2_blocked_rejected_everywhere (st : LibState) (m : Member) (isbn : String)
    (dd rd ad : Option Int) (today : Int) (h : m.status = MemberStatus.BLOCKED) :
    borrow_book st (some m) isbn dd today =
      (.error (.memberBlocked "Member is blocked"), st, some m) ∧
    return_book st (some m) isbn rd =
      (.error (.memberBlocked "Member is blocked"), st, some m) ∧
    calculate_fine st (some m) ad =
      (.error (.memberBlocked "Member is blocked"), st, some m) := by
  refine ⟨?_, ?_, ?_⟩ <;> simp [borrow_book, return_book, calculate_fine, h]

/-- C2 witness: the blocked demo member (id 77) is rejected by all three
operations on an empty service. -/
theorem C2_blocked_witness :
    borrow_book ⟨[], []⟩ (some ⟨77, "BLOCKED", []⟩) "b1" (some 14) 0 =
      (.error (.memberBlocked "Member is blocked"), ⟨[], []⟩, some ⟨77, "BLOCKED", []⟩) ∧
    return_book ⟨[], []⟩ (some ⟨77, "BLOCKED", []⟩) "b1" (some 14) =
      (.error (.memberBlocked "Member is blocked"), ⟨[], []⟩, some ⟨77, "BLOCKED", []⟩) ∧
    calculate_fine ⟨[], []⟩ (some ⟨77, "BLOCKED", []⟩) (some 14) =
      (.error (.memberBlocked "Member is blocked"), ⟨[], []⟩, some ⟨77, "BLOCKED", []⟩) :=
  C2_blocked_rejected_everywhere ⟨[], []⟩ ⟨77, "BLOCKED", []⟩ "b1"
    (some 14) (some 14) (some 14) 0 (by decide)

/-- C9: for a fixed non-blocked member, calculate_fine is monotone
non-decreasing in the as-of date. -/
theorem C9_calculate_fine_monotone (st : LibState) (m : Member) (d1 d2 : Int)
    (q1 q2 : ℚ) (h : m.status ≠ MemberStatus.BLOCKED) (hd : d1 ≤ d2)
    (h1 : (calculate_fine st (some m) (some d1)).1 = Except.ok q1)
    (h2 : (calculate_fine st (some m) (some d2)).1 = Except.ok q2) :
    q1 ≤ q2 := by
  rw [calculate_fine_ok st m d1 h] at h1
  rw [calculate_fine_ok st m d2 h] at h2
  simp only [Except.ok.injEq] at h1 h2
  subst h1
  subst h2
  apply List.sum_le_sum
  intro r hr
  exact overdueContrib_mono d1 d2 r hd

/-- C9 witness: one record due on day 14; the fine as of day 15 (0.50) is at
most the fine as of day 16 (1.00). -/
theorem C9_calculate_fine_monotone_witness :
    (calculate_fine ⟨[], []⟩ (some ⟨42, "ACTIVE", [("b1", ⟨"b1", 0, 14, none⟩)]⟩)
      (some 15)).1 = Except.ok (1 / 2) ∧
    (calculate_fine ⟨[], []⟩ (some ⟨42, "ACTIVE", [("b1", ⟨"b1", 0, 14, none⟩)]⟩)
      (some 16)).1 = Except.ok 1 ∧
    ((1 : ℚ) / 2) ≤ 1 := by
  have e1 : (calculate_fine ⟨[], []⟩
      (some ⟨42, "ACTIVE", [("b1", ⟨"b1", 0, 14, none⟩)]⟩) (some 15)).1 =
      Except.ok (1 / 2 : ℚ) := by
    rw [calculate_fine_ok _ _ _ (by decide)]
    norm_num [overdueContrib, BorrowRecord.is_overdue, DAILY_FINE]
  have e2 : (calculate_fine ⟨[], []⟩
      (some ⟨42, "ACTIVE", [("b1", ⟨"b1", 0, 14, none⟩)]⟩) (some 16)).1 =
      Except.ok (1 : ℚ) := by
    rw [calculate_fine_ok _ _ _ (by decide)]
    norm_num [overdueContrib, BorrowRecord.is_overdue, DAILY_FINE]
  exact ⟨e1, e2,
    C9_calculate_fine_monotone ⟨[], []⟩ ⟨42, "ACTIVE", [("b1", ⟨"b1", 0, 14, none⟩)]⟩
      15 16 (1 / 2) 1 (by decide) (by decide) e1 e2⟩

theorem member_return_book_of_get_none (m : Member) (isbn : String) (d : Int)
    (h : dictGet m.borrowed isbn = none) :
    Member.return_book m isbn d = (none, m) := by
  unfold Member.return_book
  rw [dictPop_of_get_none m.borrowed isbn h]

theorem member_return_book_of_get_some (m : Member) (isbn : String) (d : Int)
    (r : BorrowRecord) (h : dictGet m.borrowed isbn = some r) :
    Member.return_book m isbn d =
      (some { r with returned_on := some d },
       { m with borrowed := m.borrowed.eraseP (fun p => decide (p.1 = isbn)) }) := by
  unfold Member.return_book
  have h1 : (dictPop m.borrowed isbn).1 = some r := by rw [dictPop_fst]; exact h
  have h2 : (dictPop m.borrowed isbn).2 =
      m.borrowed.eraseP (fun p => decide (p.1 = isbn)) := dictPop_snd _ _
  rcases hp : dictPop m.borrowed isbn with ⟨ropt, rest⟩
  rw [hp] at h1 h2
  cases ropt with
  | none => exact absurd h1 (by simp)
  | some r0 =>
    simp only [Option.some.injEq] at h1
    subst h1
    subst h2
    rfl

theorem borrow_book_state (st : LibState) (mo : Option Member) (isbn : String)
    (dd : Option Int) (today : Int) : (borrow_book st mo isbn dd today).2.1 = st := by
  unfold borrow_book
  cases mo with
  | none => rfl
  | some m =>
    dsimp only
    split
    · rfl
    · cases dd with
      | none => rfl
      | some d =>
        dsimp only
        split
        · rfl
        · cases dictGet st.catalogue isbn <;> rfl

theorem return_book_state (st : LibState) (mo : Option Member) (isbn : String)
    (rd : Option Int) : (return_book st mo isbn rd).2.1 = st := by
  unfold return_book
  cases mo with
  | none => rfl
  | some m =>
    dsimp only
    split
    · rfl
    · cases rd with
      | none => rfl
      | some d =>
        dsimp only
        rcases Member.return_book m isbn d with ⟨ropt, m2⟩
        cases ropt <;> rfl

theorem calculate_fine_state (st : LibState) (mo : Option Member) (ad : Option Int) :
    (calculate_fine st mo ad).2.1 = st := by
  unfold calculate_fine
  cases mo with
  | none => rfl
  | some m =>
    dsimp only
    split
    · rfl
    · cases ad <;> rfl

theorem search_books_state (st : LibState) (q : Option String) (ts : Option (List String))
    (ps pn : Int) : (search_books st q ts ps pn).2 = st := by
  unfold search_books
  cases q with
  | none => rfl
  | some s =>
    dsimp only
    split
    · rfl
    · cases ts with
      | none => rfl
      | some l =>
        dsimp only
        split
        · rfl
        · split <;> rfl

/-- C3: whenever any of the four operations fails with any error, the
catalogue, the members registry and the passed member (with its borrow-record
set) are exactly as before the call. -/
theorem C3_failed_calls_leave_state_unchanged (st : LibState) (mo : Option Member)
    (isbn : String) (dd rd ad : Option Int) (today : Int) (q : Option String)
    (ts : Option (List String)) (ps pn : Int) :
    (∀ e, (borrow_book st mo isbn dd today).1 = Except.error e →
      (borrow_book st mo isbn dd today).2 = (st, mo)) ∧
    (∀ e, (return_book st mo isbn rd).1 = Except.error e →
      (return_book st mo isbn rd).2 = (st, mo)) ∧
    (∀ e, (calculate_fine st mo ad).1 = Except.error e →
      (calculate_fine st mo ad).2 = (st, mo)) ∧
    (∀ e, (search_books st q ts ps pn).1 = Except.error e →
      (search_books st q ts ps pn).2 = st) := by
  refine ⟨?_, ?_, ?_, fun e _ => search_books_state st q ts ps pn⟩
  · intro e h
    cases mo with
    | none => simp [borrow_book]
    | some m =>
      by_cases hb : m.status = MemberStatus.BLOCKED
      · simp [borrow_book, hb]
      · cases dd with
        | none => simp [borrow_book, hb]
        | some d =>
          by_cases hd : d ≤ today
          · simp [borrow_book, hb, hd]
          · cases hc : dictGet st.catalogue isbn with
            | none => simp [borrow_book, hb, hd, hc]
            | some b => simp [borrow_book, hb, hd, hc] at h
  · intro e h
    cases mo with
    | none => simp [return_book]
    | some m =>
      by_cases hb : m.status = MemberStatus.BLOCKED
      · simp [return_book, hb]
      · cases rd with
        | none => simp [return_book, hb]
        | some d =>
          cases hg : dictGet m.borrowed isbn with
          | none =>
            simp [return_book, hb, member_return_book_of_get_none m isbn d hg]
          | some r =>
            simp [return_book, hb, member_return_book_of_get_some m isbn d r hg] at h
  · intro e h
    cases mo with
    | none => simp [calculate_fine]
    | some m =>
      by_cases hb : m.status = MemberStatus.BLOCKED
      · simp [calculate_fine, hb]
      · cases ad with
        | none => simp [calculate_fine, hb]
        | some d => simp [calculate_fine, hb] at h

/-- C3 witness: a failing borrow (unknown isbn), a failing return (nothing
borrowed), a failing fine query (member is None) and a failing search (empty
query) all leave the state unchanged. -/
theorem C3_failed_calls_witness :
    (borrow_book ⟨[], []⟩ (some ⟨42, "ACTIVE", []⟩) "b1" (some 14) 0).2 =
      (⟨[], []⟩, some ⟨42, "ACTIVE", []⟩) ∧
    (return_book ⟨[], []⟩ (some ⟨42, "ACTIVE", []⟩) "b1" (some 14)).2 =
      (⟨[], []⟩, some ⟨42, "ACTIVE", []⟩) ∧
    (calculate_fine ⟨[], []⟩ none (some 14)).2 = (⟨[], []⟩, none) ∧
    (search_books ⟨[], []⟩ (some "") (some []) 10 0).2 = ⟨[], []⟩ := by
  have h := C3_failed_calls_leave_state_unchanged ⟨[], []⟩ (some ⟨42, "ACTIVE", []⟩)
    "b1" (some 14) (some 14) (some 14) 0 (some "") (some []) 10 0
  have h2 := C3_failed_calls_leave_state_unchanged ⟨[], []⟩ none
    "b1" (some 14) (some 14) (some 14) 0 (some "") (some []) 10 0
  exact ⟨h.1 (.bookNotFound "ISBN not found") (by rfl),
         h.2.1 (.bookNotBorrowed "Book was not borrowed by member") (by rfl),
         h2.2.2.1 (.valueError "member must not be None") (by rfl),
         h.2.2.2 (.valueError "query must not be empty") (by rfl)⟩

/-- C4: for a non-blocked member and a concrete return date, returning an
isbn with an open record removes it (its key no longer resolves), stamps the
popped record's returned_on, and yields RETURNED_LATE exactly when the return
date is strictly after the due date; with no open record for the isbn the
call fails with BookNotBorrowed and changes nothing. -/
theorem C4_return_book_behaviour (st : LibState) (m : Member) (isbn : String) (d : Int)
    (h : m.status ≠ MemberStatus.BLOCKED)
    (hnd : (m.borrowed.map Prod.fst).Nodup) :
    (∀ r, dictGet m.borrowed isbn = some r →
      return_book st (some m) isbn (some d) =
        (Except.ok ⟨if r.due_on < d then ReceiptStatus.RETURNED_LATE
                    else ReceiptStatus.RETURNED_ON_TIME, d, isbn⟩, st,
         some { m with borrowed := m.borrowed.eraseP (fun p => decide (p.1 = isbn)) }) ∧
      (Member.return_book m isbn d).1 = some { r with returned_on := some d } ∧
      dictGet (m.borrowed.eraseP (fun p => decide (p.1 = isbn))) isbn = none) ∧
    (dictGet m.borrowed isbn = none →
      return_book st (some m) isbn (some d) =
        (Except.error (.bookNotBorrowed "Book was not borrowed by member"), st, some m)) := by
  constructor
  · intro r hr
    refine ⟨?_, ?_, dictGet_eraseP_self_of_nodup m.borrowed isbn hnd⟩
    · simp [return_book, h, member_return_book_of_get_some m isbn d r hr]
    · rw [member_return_book_of_get_some m isbn d r hr]
  · intro hg
    simp [return_book, h, member_return_book_of_get_none m isbn d hg]

/-- C4 witness: a member holding one record due on day 14 returns it on day
16 (late) and cannot return an isbn it never borrowed. -/
theorem C4_return_book_witness :
    return_book ⟨[], []⟩ (some ⟨42, "ACTIVE", [("b1", ⟨"b1", 0, 14, none⟩)]⟩)
      "b1" (some 16) =
      (Except.ok ⟨ReceiptStatus.RETURNED_LATE, 16, "b1"⟩, ⟨[], []⟩,
       some ⟨42, "ACTIVE", []⟩) ∧
    return_book ⟨[], []⟩ (some ⟨42, "ACTIVE", [("b1", ⟨"b1", 0, 14, none⟩)]⟩)
      "b2" (some 16) =
      (Except.error (.bookNotBorrowed "Book was not borrowed by member"), ⟨[], []⟩,
       some ⟨42, "ACTIVE", [("b1", ⟨"b1", 0, 14, none⟩)]⟩) := by
  have h := C4_return_book_behaviour ⟨[], []⟩
    ⟨42, "ACTIVE", [("b1", ⟨"b1", 0, 14, none⟩)]⟩ "b1" 16 (by decide) (by decide)
  have h2 := C4_return_book_behaviour ⟨[], []⟩
    ⟨42, "ACTIVE", [("b1", ⟨"b1", 0, 14, none⟩)]⟩ "b2" 16 (by decide) (by decide)
  constructor
  · have he := (h.1 ⟨"b1", 0, 14, none⟩ (by rfl)).1
    rw [he]
    rfl
  · exact h2.2 (by rfl)

/-- C5: borrowing an isbn the member already holds open does not fail: it
returns a BORROWED receipt for today and the member's record for that isbn is
silently replaced by a fresh record (borrowed today, new due date). -/
theorem C5_borrow_overwrites_open_record (st : LibState) (m : Member) (isbn : String)
    (due today : Int) (h : m.status ≠ MemberStatus.BLOCKED)
    (hc : ∃ b, dictGet st.catalogue isbn = some b) (hd : today < due)
    (_hopen : ∃ r, dictGet m.borrowed isbn = some r) :
    borrow_book st (some m) isbn (some due) today =
      (Except.ok ⟨ReceiptStatus.BORROWED, today, isbn⟩, st,
       some (Member.borrow m isbn due today)) ∧
    dictGet (Member.borrow m isbn due today).borrowed isbn =
      some ⟨isbn, today, due, none⟩ := by
  obtain ⟨b, hb⟩ := hc
  constructor
  · simp [borrow_book, h, hb, not_le.mpr hd]
  · unfold Member.borrow
    exact dictGet_dictSet_self m.borrowed isbn ⟨isbn, today, due, none⟩

/-- C5 witness: member 42 re-borrows "b1" (already open, due day 14) with a
new due date 30 on day 5; the old record is replaced, no error. -/
theorem C5_borrow_overwrites_witness :
    borrow_book ⟨[("b1", ⟨"b1", "Clean Code", []⟩)], []⟩
      (some ⟨42, "ACTIVE", [("b1", ⟨"b1", 0, 14, none⟩)]⟩) "b1" (some 30) 5 =
      (Except.ok ⟨ReceiptStatus.BORROWED, 5, "b1"⟩,
       ⟨[("b1", ⟨"b1", "Clean Code", []⟩)], []⟩,
       some ⟨42, "ACTIVE", [("b1", ⟨"b1", 5, 30, none⟩)]⟩) := by
  have h := C5_borrow_overwrites_open_record ⟨[("b1", ⟨"b1", "Clean Code", []⟩)], []⟩
    ⟨42, "ACTIVE", [("b1", ⟨"b1", 0, 14, none⟩)]⟩ "b1" 30 5 (by decide)
    ⟨⟨"b1", "Clean Code", []⟩, by rfl⟩ (by decide) ⟨⟨"b1", 0, 14, none⟩, by rfl⟩
  rw [h.1]
  rfl

theorem emptyOrSpace_eq_all (s : String) :
    (s.data.isEmpty || pyStrIsSpace s) = s.data.all isPySpace := by
  unfold pyStrIsSpace
  cases hs : s.data with
  | nil => simp [hs]
  | cons c cs => simp [hs]

/-- C6: a book appears in a valid search result only if it passes the text
filter (literal "*" query, or the lowered query is a contiguous substring of
the lowered title) and the tag filter (every requested tag is among the
book's tags; an empty tag set is vacuously satisfied). -/
theorem C6_search_result_passes_filters (st : LibState) (q : String)
    (ts : List String) (ps pn : Int) (books : List Book) (b : Book)
    (hok : (search_books st (some q) (some ts) ps pn).1 = Except.ok books)
    (hb : b ∈ books) :
    (q = "*" ∨ strLower q <:+: strLower b.title) ∧ ∀ t ∈ ts, t ∈ b.tags := by
  by_cases hq : (q.data.isEmpty || pyStrIsSpace q) = true
  · rw [search_books] at hok
    rw [if_pos hq] at hok
    exact absurd hok (by simp)
  · by_cases hps : 1 ≤ ps ∧ ps ≤ 100
    · by_cases hpn : 0 ≤ pn
      · rw [search_books_ok st q ts ps pn (by simpa using hq) hps hpn] at hok
        simp only [Except.ok.injEq] at hok
        subst hok
        have hbf : b ∈ filteredSpec st.catalogue q ts :=
          List.mem_of_mem_drop (List.mem_of_mem_take hb)
        unfold filteredSpec at hbf
        rw [List.mem_filter] at hbf
        obtain ⟨-, hpred⟩ := hbf
        simp only [Bool.and_eq_true, Bool.or_eq_true, decide_eq_true_eq,
          List.all_eq_true, containsSub_iff] at hpred
        refine ⟨hpred.1, fun t ht => ?_⟩
        have := hpred.2 t ht
        simpa using this
      · rw [search_books] at hok
        rw [if_neg (by simpa using hq)] at hok
        rw [if_neg (by omega)] at hok
        rw [if_pos (by omega)] at hok
        exact absurd hok (by simp)
    · rw [search_books] at hok
      rw [if_neg (by simpa using hq)] at hok
      rw [if_pos hps] at hok
      exact absurd hok (by simp)

/-- C6 witness: searching "java" over the two-book demo catalogue returns
only "Effective Java", which contains the query and (vacuously) every tag of
the empty tag set. -/
theorem C6_search_result_witness :
    ("java" = "*" ∨ strLower "java" <:+: strLower "Effective Java") ∧
    ∀ t ∈ ([] : List String), t ∈ (["java"] : List String) :=
  C6_search_result_passes_filters
    ⟨[("b1", ⟨"b1", "Clean Code", ["java", "architecture"]⟩),
      ("b2", ⟨"b2", "Effective Java", ["java"]⟩)], []⟩
    "java" [] 10 0 [⟨"b2", "Effective Java", ["java"]⟩] ⟨"b2", "Effective Java", ["java"]⟩
    (by rfl) (by simp)

/-- C7: a valid search returns exactly the slice
`[pageSize*pageNumber, pageSize*pageNumber + pageSize)` of the filtered
sequence (clipped), and a page whose start is at or beyond the end of the
filtered results is the empty list, not an error. -/
theorem C7_search_pagination (st : LibState) (q : String) (ts : List String)
    (ps pn : Int) (hq : (q.data.isEmpty || pyStrIsSpace q) = false)
    (hps : 1 ≤ ps ∧ ps ≤ 100) (hpn : 0 ≤ pn) :
    (search_books st (some q) (some ts) ps pn).1 =
      Except.ok (((filteredSpec st.catalogue q ts).drop (ps * pn).toNat).take ps.toNat) ∧
    ((filteredSpec st.catalogue q ts).length ≤ (ps * pn).toNat →
      (search_books st (some q) (some ts) ps pn).1 = Except.ok []) := by
  have hmain := search_books_ok st q ts ps pn hq hps hpn
  constructor
  · rw [hmain]
  · intro hlen
    rw [hmain]
    have hdrop : (filteredSpec st.catalogue q ts).drop (ps * pn).toNat = [] :=
      List.drop_eq_nil_of_le hlen
    rw [hdrop, List.take_nil]

/-- C7 witness: page 5 of size 1 over a one-book result is empty, with the
page-0 slice returning the single matching book. -/
theorem C7_search_pagination_witness :
    (search_books ⟨[("b2", ⟨"b2", "Effective Java", ["java"]⟩)], []⟩
      (some "java") (some []) 1 5).1 = Except.ok [] := by
  have h := C7_search_pagination ⟨[("b2", ⟨"b2", "Effective Java", ["java"]⟩)], []⟩
    "java" [] 1 5 (by rfl) (by constructor <;> norm_num) (by norm_num)
  exact h.2 (by decide)

/-- C8: for any inputs, search fails (always with the InvalidArgument-style
ValueError) exactly when the query is missing or all-whitespace (this
includes the empty string, on which `all` is vacuously true), or the tag list
is missing, or page_size lies outside 1..100, or page_number is negative. -/
theorem C8_search_validation (st : LibState) (q : Option String)
    (ts : Option (List String)) (ps pn : Int) :
    ((∃ msg, (search_books st q ts ps pn).1 = Except.error (.valueError msg)) ↔
      (q = none ∨ (∃ s, q = some s ∧ s.data.all isPySpace = true) ∨ ts = none ∨
       ps < 1 ∨ 100 < ps ∨ pn < 0)) ∧
    (∀ e, (search_books st q ts ps pn).1 = Except.error e →
      ∃ msg, e = LibError.valueError msg) := by
  cases q with
  | none =>
    refine ⟨⟨fun _ => Or.inl rfl, fun _ => ⟨"query must not be empty", rfl⟩⟩, ?_⟩
    intro e he
    simp only [search_books] at he
    exact ⟨"query must not be empty", by injection he with h1; exact h1.symm⟩
  | some s =>
    by_cases hs : (s.data.isEmpty || pyStrIsSpace s) = true
    · have hall : s.data.all isPySpace = true := by rw [← emptyOrSpace_eq_all]; exact hs
      refine ⟨⟨fun _ => Or.inr (Or.inl ⟨s, rfl, hall⟩), fun _ => ⟨"query must not be empty", ?_⟩⟩, ?_⟩
      · rw [search_books.eq_def]
        dsimp only
        rw [if_pos hs]
      · intro e he
        rw [search_books.eq_def] at he
        dsimp only at he
        rw [if_pos hs] at he
        exact ⟨"query must not be empty", by injection he with h1; exact h1.symm⟩
    · have hall : ¬ s.data.all isPySpace = true := by rw [← emptyOrSpace_eq_all]; exact hs
      cases ts with
      | none =>
        refine ⟨⟨fun _ => Or.inr (Or.inr (Or.inl rfl)), fun _ => ⟨"tags must not be None", ?_⟩⟩, ?_⟩
        · rw [search_books.eq_def]
          dsimp only
          rw [if_neg hs]
        · intro e he
          rw [search_books.eq_def] at he
          dsimp only at he
          rw [if_neg hs] at he
          exact ⟨"tags must not be None", by injection he with h1; exact h1.symm⟩
      | some l =>
        by_cases hps : 1 ≤ ps ∧ ps ≤ 100
        · by_cases hpn : 0 ≤ pn
          · have hmain := search_books_ok st s l ps pn (by simpa using hs) hps hpn
            refine ⟨⟨?_, ?_⟩, ?_⟩
            · rintro ⟨msg, hmsg⟩
              rw [hmain] at hmsg
              exact absurd hmsg (by simp)
            · rintro (h | ⟨s2, hs2, hall2⟩ | h | h | h | h)
              · exact absurd h (by simp)
              · injection hs2 with hs2
                subst hs2
                exact absurd hall2 hall
              · exact absurd h (by simp)
              · omega
              · omega
              · omega
            · intro e he
              rw [hmain] at he
              exact absurd he (by simp)
          · refine ⟨⟨fun _ => Or.inr (Or.inr (Or.inr (Or.inr (Or.inr (by omega))))),
              fun _ => ⟨"page_number must be >= 0", ?_⟩⟩, ?_⟩
            · rw [search_books.eq_def]
              dsimp only
              rw [if_neg hs, if_neg (by omega), if_pos (by omega)]
            · intro e he
              rw [search_books.eq_def] at he
              dsimp only at he
              rw [if_neg hs, if_neg (by omega), if_pos (by omega)] at he
              exact ⟨"page_number must be >= 0", by injection he with h1; exact h1.symm⟩
        · have hrange : ps < 1 ∨ 100 < ps := by omega
          refine ⟨⟨fun _ => ?_, fun _ => ⟨"page_size must be 1..100", ?_⟩⟩, ?_⟩
          · rcases hrange with h | h
            · exact Or.inr (Or.inr (Or.inr (Or.inl h)))
            · exact Or.inr (Or.inr (Or.inr (Or.inr (Or.inl h))))
          · rw [search_books.eq_def]
            dsimp only
            rw [if_neg hs, if_pos hps]
          · intro e he
            rw [search_books.eq_def] at he
            dsimp only at he
            rw [if_neg hs, if_pos hps] at he
            exact ⟨"page_size must be 1..100", by injection he with h1; exact h1.symm⟩

/-- C8 witness: page_size 0 is rejected with the ValueError-style failure,
and any error search reports is of that kind. -/
theorem C8_search_validation_witness :
    (∃ msg, (search_books ⟨[], []⟩ (some "java") (some []) 0 0).1 =
      Except.error (.valueError msg)) ∧
    (∃ msg, LibError.valueError "page_size must be 1..100" = LibError.valueError msg) := by
  have h := C8_search_validation ⟨[], []⟩ (some "java") (some []) 0 0
  refine ⟨h.1.mpr (by norm_num), h.2 (.valueError "page_size must be 1..100") ?_⟩
  rfl

/-- C10: none of the four operations reads or writes the members registry:
with identical catalogues and identical other inputs, any two registry
contents give the same outcome and the same member mutation, and every call
returns the state it was given (so a member object never present in the
registry is served exactly like a registered one). -/
theorem C10_operations_ignore_members_registry (cat : List (String × Book))
    (ms1 ms2 : List (Int × Member)) (mo : Option Member) (isbn : String)
    (dd rd ad : Option Int) (today : Int) (q : Option String)
    (ts : Option (List String)) (ps pn : Int) :
    ((borrow_book ⟨cat, ms1⟩ mo isbn dd today).1 =
       (borrow_book ⟨cat, ms2⟩ mo isbn dd today).1 ∧
     (borrow_book ⟨cat, ms1⟩ mo isbn dd today).2.2 =
       (borrow_book ⟨cat, ms2⟩ mo isbn dd today).2.2 ∧
     (borrow_book ⟨cat, ms1⟩ mo isbn dd today).2.1 = ⟨cat, ms1⟩) ∧
    ((return_book ⟨cat, ms1⟩ mo isbn rd).1 =
       (return_book ⟨cat, ms2⟩ mo isbn rd).1 ∧
     (return_book ⟨cat, ms1⟩ mo isbn rd).2.2 =
       (return_book ⟨cat, ms2⟩ mo isbn rd).2.2 ∧
     (return_book ⟨cat, ms1⟩ mo isbn rd).2.1 = ⟨cat, ms1⟩) ∧
    ((calculate_fine ⟨cat, ms1⟩ mo ad).1 =
       (calculate_fine ⟨cat, ms2⟩ mo ad).1 ∧
     (calculate_fine ⟨cat, ms1⟩ mo ad).2.2 =
       (calculate_fine ⟨cat, ms2⟩ mo ad).2.2 ∧
     (calculate_fine ⟨cat, ms1⟩ mo ad).2.1 = ⟨cat, ms1⟩) ∧
    ((search_books ⟨cat, ms1⟩ q ts ps pn).1 =
       (search_books ⟨cat, ms2⟩ q ts ps pn).1 ∧
     (search_books ⟨cat, ms1⟩ q ts ps pn).2 = ⟨cat, ms1⟩) := by
  have hborrow : (borrow_book ⟨cat, ms1⟩ mo isbn dd today).1 =
      (borrow_book ⟨cat, ms2⟩ mo isbn dd today).1 ∧
      (borrow_book ⟨cat, ms1⟩ mo isbn dd today).2.2 =
      (borrow_book ⟨cat, ms2⟩ mo isbn dd today).2.2 := by
    cases mo with
    | none => exact ⟨rfl, rfl⟩
    | some m =>
      by_cases hb : m.status = MemberStatus.BLOCKED
      · simp [borrow_book, hb]
      · cases dd with
        | none => simp [borrow_book, hb]
        | some d =>
          by_cases hd : d ≤ today
          · simp [borrow_book, hb, hd]
          · cases hc : dictGet cat isbn with
            | none => simp [borrow_book, hb, hd, hc]
            | some b => simp [borrow_book, hb, hd, hc]
  have hreturn : (return_book ⟨cat, ms1⟩ mo isbn rd).1 =
      (return_book ⟨cat, ms2⟩ mo isbn rd).1 ∧
      (return_book ⟨cat, ms1⟩ mo isbn rd).2.2 =
      (return_book ⟨cat, ms2⟩ mo isbn rd).2.2 := by
    cases mo with
    | none => exact ⟨rfl, rfl⟩
    | some m =>
      by_cases hb : m.status = MemberStatus.BLOCKED
      · simp [return_book, hb]
      · cases rd with
        | none => simp [return_book, hb]
        | some d =>
          rcases hm : Member.return_book m isbn d with ⟨ropt, m2⟩
          cases ropt <;> simp [return_book, hb, hm]
  have hfine : (calculate_fine ⟨cat, ms1⟩ mo ad).1 =
      (calculate_fine ⟨cat, ms2⟩ mo ad).1 ∧
      (calculate_fine ⟨cat, ms1⟩ mo ad).2.2 =
      (calculate_fine ⟨cat, ms2⟩ mo ad).2.2 := by
    cases mo with
    | none => exact ⟨rfl, rfl⟩
    | some m =>
      by_cases hb : m.status = MemberStatus.BLOCKED
      · simp [calculate_fine, hb]
      · cases ad with
        | none => simp [calculate_fine, hb]
        | some d => simp [calculate_fine, hb]
  have hsearch : (search_books ⟨cat, ms1⟩ q ts ps pn).1 =
      (search_books ⟨cat, ms2⟩ q ts ps pn).1 := by
    cases q with
    | none => rfl
    | some s =>
      cases ts with
      | none =>
        by_cases hsp : (s.data.isEmpty || pyStrIsSpace s) = true <;>
          simp [search_books, hsp]
      | some l =>
        by_cases hsp : (s.data.isEmpty || pyStrIsSpace s) = true
        · simp [search_books, hsp]
        · by_cases hps2 : 1 ≤ ps ∧ ps ≤ 100
          · by_cases hpn2 : 0 ≤ pn
            · rw [search_books_ok ⟨cat, ms1⟩ s l ps pn (by simpa using hsp) hps2 hpn2]
              rw [search_books_ok ⟨cat, ms2⟩ s l ps pn (by simpa using hsp) hps2 hpn2]
            · have hlt : pn < 0 := by omega
              simp [search_books, hsp, hps2, hlt]
          · simp [search_books, hsp, hps2]
  exact ⟨⟨hborrow.1, hborrow.2, borrow_book_state _ _ _ _ _⟩,
         ⟨hreturn.1, hreturn.2, return_book_state _ _ _ _⟩,
         ⟨hfine.1, hfine.2, calculate_fine_state _ _ _⟩,
         ⟨hsearch, search_books_state _ _ _ _ _⟩⟩
